import Mathlib

/-!
Verification of the diff-to-manifest classification engine of
`src/manifest.rs`.  Rust strings are modelled as `List Char`
(the code walks them with `.chars()`), `usize` byte lengths as the
summed UTF-8 sizes of the characters, `HashSet<String>` as a
duplicate-free insertion-ordered list, and the logger as a list of
emitted error messages.  Every definition below is a direct
transcription of the function of the same name in the source file;
definitions whose doc comment says so follow the spec text instead
and exist only for comparison.
-/

namespace SfManifest

/-- Rust `String` and `&str`, seen as the sequence of their characters. -/
abbrev Str := List Char

/-- UTF-8 byte length: what Rust `String::len` returns. -/
def utf8_len (s : Str) : Nat := s.foldl (fun n c => n + c.utf8Size) 0

/-- Constant `MAXIMUM_DIFF_FILE_SIZE` from `manifest.rs`. -/
def MAXIMUM_DIFF_FILE_SIZE : Nat := 5000

/-- The pair of output documents (`struct ManifestBundle`). -/
structure ManifestBundle where
  manifest : Str
  destructive_manifest : Str
deriving DecidableEq

/-- Constructor `ManifestBundle::new`: both documents start as empty strings. -/
def ManifestBundle.new : ManifestBundle := { manifest := [], destructive_manifest := [] }

/-- Rust `struct MetadataBucket`: one metadata category with its two member sets. -/
structure MetadataBucket where
  file_path_name : Str
  package_xml_name : Str
  files : List Str
  destructive_files : List Str
  bundle : Bool
deriving DecidableEq

/-- Constructor `MetadataBucket::new`. -/
def MetadataBucket.new (file_path_name package_xml_name : String) (bundle : Bool) :
    MetadataBucket :=
  { file_path_name := file_path_name.data, package_xml_name := package_xml_name.data,
    files := [], destructive_files := [], bundle := bundle }

/-- Insertion `HashSet::insert`: add the member if it is not already present. -/
def insert_set (x : Str) (s : List Str) : List Str := if x ∈ s then s else s ++ [x]

/-- The fixed category table from `common_metadata_buckets`. -/
def common_metadata_buckets : List MetadataBucket := [
  MetadataBucket.new "approvalProcesses" "ApprovalProcess" false,
  MetadataBucket.new "aura" "AuraDefinitionBundle" true,
  MetadataBucket.new "businessProcesses" "BusinessProcess" false,
  MetadataBucket.new "classes" "ApexClass" false,
  MetadataBucket.new "compactLayouts" "CompactLayout" false,
  MetadataBucket.new "customMetadata" "CustomMetadata" false,
  MetadataBucket.new "customPermissions" "CustomPermission" false,
  MetadataBucket.new "customSettings" "CustomSetting" false,
  MetadataBucket.new "externalCredentials" "ExternalCredential" false,
  MetadataBucket.new "fieldSets" "FieldSet" false,
  MetadataBucket.new "fields" "CustomField" false,
  MetadataBucket.new "flexipages" "FlexiPage" false,
  MetadataBucket.new "flows" "Flow" false,
  MetadataBucket.new "globalValueSets" "GlobalValueSet" false,
  MetadataBucket.new "groups" "Group" false,
  MetadataBucket.new "labels" "CustomLabels" false,
  MetadataBucket.new "layouts" "Layout" false,
  MetadataBucket.new "listViews" "ListView" false,
  MetadataBucket.new "lwc" "LightningComponentBundle" true,
  MetadataBucket.new "namedCredentials" "NamedCredential" false,
  MetadataBucket.new "objects" "CustomObject" false,
  MetadataBucket.new "pages" "ApexPage" false,
  MetadataBucket.new "permissionsetgroups" "PermissionSetGroup" false,
  MetadataBucket.new "permissionsets" "PermissionSet" false,
  MetadataBucket.new "profiles" "Profile" false,
  MetadataBucket.new "quickActions" "QuickAction" false,
  MetadataBucket.new "recordTypes" "RecordType" false,
  MetadataBucket.new "remoteSiteSettings" "RemoteSiteSetting" false,
  MetadataBucket.new "searchLayouts" "SearchLayouts" false,
  MetadataBucket.new "standardValueSets" "StandardValueSet" false,
  MetadataBucket.new "tabs" "CustomTab" false,
  MetadataBucket.new "triggers" "ApexTrigger" false,
  MetadataBucket.new "validationRules" "ValidationRule" false,
  MetadataBucket.new "webLinks" "WebLink" false]

/-- The key set of the `map_metadata_buckets` map: the folder names of the
fixed table (keys are unique, so the name-to-index map is equivalent to
lookup by name). -/
def metadata_category_keys : List Str := common_metadata_buckets.map (fun b => b.file_path_name)

/-- Mutation of the bucket the index map points at, modelled as an update of
the first bucket carrying the folder key (keys are unique in the table). -/
def update_bucket (key : Str) (f : MetadataBucket → MetadataBucket) :
    List MetadataBucket → List MetadataBucket
  | [] => []
  | b :: bs => if b.file_path_name = key then f b :: bs else b :: update_bucket key f bs

/-- The additive member set of the bucket with the given folder key. -/
def bucket_files (key : Str) : List MetadataBucket → List Str
  | [] => []
  | b :: bs => if b.file_path_name = key then b.files else bucket_files key bs

/-- The destructive member set of the bucket with the given folder key. -/
def bucket_destructive_files (key : Str) : List MetadataBucket → List Str
  | [] => []
  | b :: bs => if b.file_path_name = key then b.destructive_files else bucket_destructive_files key bs

/-- The `bundle` flag of the bucket with the given folder key. -/
def bucket_is_bundle (key : Str) : List MetadataBucket → Bool
  | [] => false
  | b :: bs => if b.file_path_name = key then b.bundle else bucket_is_bundle key bs

/-- Rust `change_code.starts_with(c)`. -/
def starts_with_char (s : Str) (c : Char) : Bool :=
  match s with
  | [] => false
  | a :: _ => a == c

/-- Function `change_code_constructive`: a change is constructive unless its code
starts with the deletion marker or the rename marker. -/
def change_code_constructive (change_code : Str) : Bool :=
  if starts_with_char change_code 'D' || starts_with_char change_code 'R' then false else true

/-- Both path separators recognised by every scanner in the file. -/
def is_slash (c : Char) : Bool := c == '/' || c == '\\'

/-- The character walk of `fn basic_name`: skip to the first separator, then
collect characters until the first dot. -/
def basic_scan : Str → Bool → Str → Str
  | [], _, acc => acc
  | c :: rest, reading, acc =>
    if is_slash c then basic_scan rest true acc
    else if !reading then basic_scan rest reading acc
    else if c == '.' then acc
    else basic_scan rest reading (acc ++ [c])

/-- Function `basic_name`. -/
def basic_name (change_code name_minus_root : Str) (b : MetadataBucket) : MetadataBucket :=
  let revised := basic_scan name_minus_root false []
  if change_code_constructive change_code then { b with files := insert_set revised b.files }
  else { b with destructive_files := insert_set revised b.destructive_files }

/-- The character walk of `fn bundle_name`: the segment between the first and
second separators. -/
def bundle_scan : Str → Bool → Str → Str
  | [], _, acc => acc
  | c :: rest, found_first_slash, acc =>
    if !found_first_slash && !(is_slash c) then bundle_scan rest found_first_slash acc
    else if is_slash c && !found_first_slash then bundle_scan rest true acc
    else if is_slash c && found_first_slash then acc
    else bundle_scan rest found_first_slash (acc ++ [c])

/-- Function `bundle_name`: note the insertion always targets `files`. -/
def bundle_name (name_minus_root : Str) (b : MetadataBucket) : MetadataBucket :=
  { b with files := insert_set (bundle_scan name_minus_root false []) b.files }

/-- The character walk of `fn quick_action_name`; `total` is the byte length
of the whole name and 20 is `".quickAction-meta.xml".len() - 1`. -/
def quick_action_scan (total : Nat) : Str → Nat → Bool → Str → Option Str
  | [], _, _, _ => none
  | c :: rest, pos, found_first_slash, acc =>
    let pos1 := pos + 1
    if !found_first_slash && !(is_slash c) then quick_action_scan total rest pos1 found_first_slash acc
    else if is_slash c && !found_first_slash then quick_action_scan total rest pos1 true acc
    else if total - pos1 = 20 then some acc
    else quick_action_scan total rest pos1 found_first_slash (acc ++ [c])

/-- Function `quick_action_name`. -/
def quick_action_name (change_code name_minus_root : Str) (b : MetadataBucket) : MetadataBucket :=
  match quick_action_scan (utf8_len name_minus_root) name_minus_root 0 false [] with
  | none => b
  | some revised =>
    if change_code_constructive change_code then { b with files := insert_set revised b.files }
    else { b with destructive_files := insert_set revised b.destructive_files }

/-- The character walk of `fn custom_metadata_name`; note the Rust condition
parses as `c == '/' || (c == '\\' && !past_first_slash)`, and 15 and 12 are
the hardcoded prefix and extension byte lengths. -/
def custom_metadata_scan (total : Nat) : Str → Nat → Bool → Str → Str
  | [], _, _, acc => acc
  | c :: rest, idx, past_first_slash, acc =>
    if c == '/' || (c == '\\' && !past_first_slash) then
      custom_metadata_scan total rest idx true acc
    else if !past_first_slash then custom_metadata_scan total rest idx past_first_slash acc
    else
      let acc1 := acc ++ [c]
      let idx1 := idx + 1
      if total - 15 - idx1 = 12 then acc1
      else custom_metadata_scan total rest idx1 past_first_slash acc1

/-- Function `custom_metadata_name`: the insertion always targets `files`. -/
def custom_metadata_name (name_minus_root : Str) (b : MetadataBucket) : MetadataBucket :=
  let revised := custom_metadata_scan (utf8_len name_minus_root) name_minus_root 0 false []
  { b with files := insert_set revised b.files }

/-- What the loop of `fn object_metadata` does when it ends: nothing, an
insertion of the accumulated category text into the `objects` bucket, or an
insertion of the accumulated file text into the bucket of the accumulated
category. -/
inductive ObjResult where
  | no_insert : ObjResult
  | object_self (member : Str) : ObjResult
  | field_like (category member : Str) : ObjResult
deriving DecidableEq

/-- The character walk of `fn object_metadata` with its three mode flags. -/
def object_scan : Str → Str → Str → Str → Bool → Bool → Bool → ObjResult
  | [], _, _, _, _, _, _ => .no_insert
  | c :: rest, object_name, category_name, file_name, wObj, wCat, wFile =>
    if is_slash c && !wObj && !wCat && !wFile then
      object_scan rest object_name category_name file_name true wCat wFile
    else if is_slash c && !wCat then
      object_scan rest object_name category_name file_name false true wFile
    else if is_slash c && !wFile then
      object_scan rest object_name category_name file_name wObj false true
    else if c == '.' && !wFile then .object_self category_name
    else if c == '.' && wFile then .field_like category_name file_name
    else
      let object1 := if wObj then object_name ++ [c] else object_name
      let category1 := if wCat then category_name ++ [c] else category_name
      let file1 := if wFile then
          (if file_name.length = 0 then (object1 ++ ['.']) ++ [c] else file_name ++ [c])
        else file_name
      object_scan rest object1 category1 file1 wObj wCat wFile

/-- Function `object_metadata`. -/
def object_metadata (change_code name_minus_root : Str)
    (all_metadata_buckets : List MetadataBucket) : List MetadataBucket :=
  match object_scan name_minus_root [] [] [] false false false with
  | .no_insert => all_metadata_buckets
  | .object_self member =>
    update_bucket ( "objects".data) (fun b =>
      if change_code_constructive change_code then { b with files := insert_set member b.files }
      else { b with destructive_files := insert_set member b.destructive_files })
      all_metadata_buckets
  | .field_like category member =>
    if category ∈ metadata_category_keys then
      update_bucket category (fun b =>
        if change_code_constructive change_code then { b with files := insert_set member b.files }
        else { b with destructive_files := insert_set member b.destructive_files })
        all_metadata_buckets
    else all_metadata_buckets

/-- The error line logged for a folder key missing from the category table. -/
def unsupported_message (category : Str) : Str :=
  "ERROR: Metadata category, ".data ++ category ++
    ", is not supported and has not been included in the manifest.\n".data

/-- The error line logged when the diff has too many lines. -/
def size_error_message : Str :=
  "ERROR: Number of files in diff exceeds the maximum file size of 5000, exiting...\n".data

/-- Constant `standard_folder` of the classification loop. -/
def standard_folder : Str := "force-app/main/default/".data

/-- Rust `String::replace`: replace every non-overlapping occurrence of `pat`,
scanning left to right.  Structural recursion on a character budget that the
scan can never exhaust. -/
def replace_all_go (pat rep : Str) : Nat → Str → Str
  | 0, s => s
  | _ + 1, [] => []
  | fuel + 1, c :: rest =>
    if !pat.isEmpty && pat.isPrefixOf (c :: rest) then
      rep ++ replace_all_go pat rep fuel ((c :: rest).drop pat.length)
    else c :: replace_all_go pat rep fuel rest

/-- Rust `String::replace` at the top level. -/
def replace_all (pat rep s : Str) : Str := replace_all_go pat rep s.length s

/-- The per-line state of the raw scan at the top of the classification loop
in `fn sort_metadata_buckets`. -/
structure LineScan where
  change_code : Str
  change_code_parsed : Bool
  in_whitespace_after_change_code : Bool
  line_file_path : Str
  line_file_path_parsed : Bool
  inside_file_extension : Bool
  line_renamed_file_path : Str
deriving DecidableEq

/-- The initial per-line scan state. -/
def line_scan_init : LineScan :=
  { change_code := [], change_code_parsed := false, in_whitespace_after_change_code := true,
    line_file_path := [], line_file_path_parsed := false, inside_file_extension := false,
    line_renamed_file_path := [] }

/-- The raw per-line scan: splits a diff line into change code, file path and
(for renames) the renamed-to path. -/
def scan_line : Str → LineScan → LineScan
  | [], s => s
  | c :: rest, s =>
    if c == '\n' || c == '\r' then s
    else
      let s1 := if c == '.' then { s with inside_file_extension := true } else s
      let ws := c == ' ' || c == '\t'
      if ws && !s1.change_code_parsed then
        scan_line rest { s1 with change_code_parsed := true, in_whitespace_after_change_code := true }
      else if s1.in_whitespace_after_change_code && ws then scan_line rest s1
      else
        let s2 := if s1.in_whitespace_after_change_code && !ws then
            { s1 with in_whitespace_after_change_code := false }
          else s1
        if s2.inside_file_extension && ws then
          scan_line rest { s2 with line_file_path_parsed := true }
        else if !s2.change_code_parsed then
          scan_line rest { s2 with change_code := s2.change_code ++ [c] }
        else if !s2.line_file_path_parsed then
          scan_line rest { s2 with line_file_path := s2.line_file_path ++ [c] }
        else if s2.line_file_path_parsed && starts_with_char s2.change_code 'R' then
          scan_line rest { s2 with line_renamed_file_path := s2.line_renamed_file_path ++ [c] }
        else scan_line rest s2

/-- The resolver dispatch of the classification loop, reached once a
supported folder key has been read. -/
def dispatch_resolver (change_code name_minus_root key : Str)
    (bs : List MetadataBucket) : List MetadataBucket :=
  if key = "objects".data then object_metadata change_code name_minus_root bs
  else if key = "quickActions".data then
    update_bucket key (quick_action_name change_code name_minus_root) bs
  else if key = "customMetadata".data then
    update_bucket key (custom_metadata_name name_minus_root) bs
  else if bucket_is_bundle key bs then update_bucket key (bundle_name name_minus_root) bs
  else update_bucket key (basic_name change_code name_minus_root) bs

/-- The folder-key scan of the classification loop: mode 0 accumulates the
root category, the first separator looks it up (dispatching on success and
logging on failure), and mode 1 consumes the rest of the line doing
nothing. -/
def process_name_loop (change_code name_minus_root : Str) :
    Str → Nat → Str → List MetadataBucket → List Str → List MetadataBucket × List Str
  | [], _, _, bs, log => (bs, log)
  | c :: rest, mode, root_metadata_category, bs, log =>
    if is_slash c && mode = 0 then
      if root_metadata_category ∈ metadata_category_keys then
        (dispatch_resolver change_code name_minus_root root_metadata_category bs, log)
      else
        process_name_loop change_code name_minus_root rest 1 root_metadata_category bs
          (log ++ [unsupported_message root_metadata_category])
    else if mode = 0 then
      process_name_loop change_code name_minus_root rest 0 (root_metadata_category ++ [c]) bs log
    else process_name_loop change_code name_minus_root rest 1 root_metadata_category bs log

/-- Classification of one root-stripped name. -/
def process_name (change_code name_minus_root : Str) (bs : List MetadataBucket)
    (log : List Str) : List MetadataBucket × List Str :=
  process_name_loop change_code name_minus_root name_minus_root 0 [] bs log

/-- Classification of one parsed line: lines outside `force-app` are skipped,
the rest have the standard folder removed and are dispatched by folder key. -/
def classify_parsed (change_code line_file_path : Str) (bs : List MetadataBucket)
    (log : List Str) : List MetadataBucket × List Str :=
  if "force-app".data.isPrefixOf line_file_path then
    process_name change_code (replace_all standard_folder [] line_file_path) bs log
  else (bs, log)

/-- One iteration of the classification loop: raw line scan, then
classification of the parsed code and path. -/
def process_line (st : List MetadataBucket × List Str) (line : Str) :
    List MetadataBucket × List Str :=
  classify_parsed (scan_line line line_scan_init).change_code
    (scan_line line line_scan_init).line_file_path st.1 st.2

/-- The whole classification loop over the diff lines. -/
def process_lines : List Str → List MetadataBucket × List Str → List MetadataBucket × List Str
  | [], st => st
  | line :: rest, st => process_lines rest (process_line st line)

/-- The prolog and root element pushed onto both documents. -/
def xml_header : Str :=
  "<?xml version=\"1.0\" encoding=\"UTF-8\"?>\n<Package xmlns=\"http://soap.sforce.com/2006/04/metadata\">\n".data

/-- The fixed trailing version element and closing root tag. -/
def version_and_close : Str := "\t<version>64.0</version>\n</Package>".data

/-- The replaced text of the CustomLabels post-processing substitution. -/
def custom_labels_pattern : Str :=
  "<types>\n\t\t<members>CustomLabels</members>\n\t\t<name>CustomLabels</name>\n\t</types>\n".data

/-- The replacement text of the CustomLabels post-processing substitution. -/
def custom_labels_replacement : Str :=
  "<types>\n\t\t<members>*</members>\n\t\t<name>CustomLabels</name>\n\t</types>\n".data

/-- Rust `Vec::sort` on the strings enumerated out of a member set. -/
def sortStr (l : List Str) : List Str := List.insertionSort (· ≤ ·) l

/-- The opening of a `<types>` block. -/
def types_open : Str := "\t<types>\n".data

/-- One `<members>` line. -/
def member_line (m : Str) : Str := "\t\t<members>".data ++ m ++ "</members>\n".data

/-- The `<members>` lines pushed for a sorted member list, in order. -/
def members_lines : List Str → Str
  | [] => []
  | m :: ms => member_line m ++ members_lines ms

/-- The `<name>` element and the closing of a `<types>` block. -/
def name_and_close (package_xml_name : Str) : Str :=
  "\t\t<name>".data ++ package_xml_name ++ "</name>\n".data ++ "\t</types>\n".data

/-- The serialization loop over the buckets.  `enum` models the unspecified
enumeration order of `HashSet::iter` when the members are copied out for
sorting; the engine itself instantiates it with the identity. -/
def serialize_loop_enum (enum : List Str → List Str) :
    List MetadataBucket → Str → Str → Str × Str
  | [], x, d => (x, d)
  | b :: bs, x, d =>
    if b.files.length = 0 ∧ b.destructive_files.length = 0 then serialize_loop_enum enum bs x d
    else
      let x1 := if b.files.length > 0 then x ++ types_open else x
      let d1 := if b.destructive_files.length > 0 then d ++ types_open else d
      let sorted_files := sortStr (enum b.files)
      let sorted_destructive_files := sortStr (enum b.destructive_files)
      let x2 := x1 ++ members_lines sorted_files
      let d2 := d1 ++ members_lines sorted_destructive_files
      let x3 := if b.files.length > 0 then x2 ++ name_and_close b.package_xml_name else x2
      let d3 := if b.destructive_files.length > 0 then d2 ++ name_and_close b.package_xml_name else d2
      serialize_loop_enum enum bs x3 d3

/-- The serialization loop with the members enumerated in insertion order. -/
def serialize_loop : List MetadataBucket → Str → Str → Str × Str :=
  serialize_loop_enum (fun l => l)

/-- Function `sort_metadata_buckets`, parameterised by the set-enumeration order
used while serializing.  Returns the two documents and the logged errors. -/
def sort_metadata_buckets_enum (enum : List Str → List Str)
    (diffed_files_by_lines : List Str) : ManifestBundle × List Str :=
  if diffed_files_by_lines.length ≥ MAXIMUM_DIFF_FILE_SIZE then
    (ManifestBundle.new, [size_error_message])
  else
    ({ manifest :=
         replace_all custom_labels_pattern custom_labels_replacement
           (serialize_loop_enum enum
             (process_lines diffed_files_by_lines (common_metadata_buckets, [])).1
             xml_header xml_header).1 ++ version_and_close,
       destructive_manifest :=
         (serialize_loop_enum enum
           (process_lines diffed_files_by_lines (common_metadata_buckets, [])).1
           xml_header xml_header).2 ++ version_and_close },
     (process_lines diffed_files_by_lines (common_metadata_buckets, [])).2)

/-- Function `sort_metadata_buckets` proper. -/
def sort_metadata_buckets : List Str → ManifestBundle × List Str :=
  sort_metadata_buckets_enum (fun l => l)

/-- Function `split_to_lines_vec`: cut the standard-out text at newlines, keeping
only the newline-terminated segments. -/
def split_loop : Str → Str → List Str → List Str
  | [], _, acc => acc
  | c :: rest, current_value, acc =>
    if c == '\n' then split_loop rest [] (acc ++ [current_value])
    else split_loop rest (current_value ++ [c]) acc

/-- Function `split_to_lines_vec` at the top level, with its emptiness guard. -/
def split_to_lines_vec (diffed_files_from_standard_out : Str) : List Str :=
  if diffed_files_from_standard_out.length > 0 then
    split_loop diffed_files_from_standard_out [] []
  else []

/-! ### Reference formulations written from the spec text -/

/-- Spec 4.5: one `<types>` block — sorted members then the type name —
emitted only when the member set is non-empty.  Written from the spec's
words, for comparison with the serialization loop. -/
def spec_types_block (members : List Str) (type_name : Str) : Str :=
  if members = [] then []
  else types_open ++ members_lines (sortStr members) ++ name_and_close type_name

/-- Spec 4.5: a whole document body is the blocks of the buckets in table
order.  Written from the spec's words, for comparison with the
serialization loop. -/
def spec_document (proj : MetadataBucket → List Str) : List MetadataBucket → Str
  | [] => []
  | b :: bs => spec_types_block (proj b) b.package_xml_name ++ spec_document proj bs

/-- Prepend a character to the first segment of a split. -/
def cons_first (c : Char) : List Str → List Str
  | [] => [[c]]
  | l :: ls => (c :: l) :: ls

/-- The newline-separated segments of a text, trailing unterminated segment
included.  Written from the claim's words, for comparison with
`split_to_lines_vec`. -/
def split_nl : Str → List Str
  | [] => [[]]
  | c :: rest => if c = '\n' then [] :: split_nl rest else cons_first c (split_nl rest)

/-- Apply a function to the first segment of a split. -/
def map_first (f : Str → Str) : List Str → List Str
  | [] => []
  | l :: ls => f l :: ls

/-- A path segment containing neither separators nor dots. -/
abbrev plain_seg (s : Str) : Prop := ∀ c ∈ s, c ≠ '/' ∧ c ≠ '\\' ∧ c ≠ '.'

/-- A path segment containing no separators. -/
abbrev no_slash_seg (s : Str) : Prop := ∀ c ∈ s, c ≠ '/' ∧ c ≠ '\\'

/-! ### Helper lemmas -/

theorem sortStr_perm_eq {l1 l2 : List Str} (h : l1.Perm l2) : sortStr l1 = sortStr l2 :=
  List.eq_of_perm_of_sorted
    ((List.perm_insertionSort _ l1).trans (h.trans (List.perm_insertionSort _ l2).symm))
    (List.sorted_insertionSort _ l1) (List.sorted_insertionSort _ l2)

theorem is_slash_eq_false {c : Char} (h1 : c ≠ '/') (h2 : c ≠ '\\') : is_slash c = false := by
  simp [is_slash, h1, h2]

/-- While the object-name flag is up, a plain segment is appended to the
object name character by character. -/
theorem object_scan_obj_seg (seg : Str) (h : plain_seg seg) :
    ∀ (rest obj cat file : Str),
      object_scan (seg ++ rest) obj cat file true false false =
      object_scan rest (obj ++ seg) cat file true false false := by
  induction seg with
  | nil => intro rest obj cat file; simp
  | cons c cs ih =>
    intro rest obj cat file
    obtain ⟨h1, h2, h3⟩ := h c (by simp)
    have hs : is_slash c = false := is_slash_eq_false h1 h2
    have hd : (c == '.') = false := by simp [h3]
    simp only [List.cons_append, List.append_eq, object_scan, hs, hd, Bool.false_and, Bool.and_false,
      Bool.not_true, Bool.not_false, Bool.true_and, Bool.and_true, if_neg, Bool.false_eq_true,
      if_false, ite_true, ite_false]
    rw [ih (fun c hc => h c (by simp [hc])) rest (obj ++ [c]) cat file]
    simp

/-- While the category-name flag is up, a plain segment is appended to the
category name character by character. -/
theorem object_scan_cat_seg (seg : Str) (h : plain_seg seg) :
    ∀ (rest obj cat file : Str),
      object_scan (seg ++ rest) obj cat file false true false =
      object_scan rest obj (cat ++ seg) file false true false := by
  induction seg with
  | nil => intro rest obj cat file; simp
  | cons c cs ih =>
    intro rest obj cat file
    obtain ⟨h1, h2, h3⟩ := h c (by simp)
    have hs : is_slash c = false := is_slash_eq_false h1 h2
    have hd : (c == '.') = false := by simp [h3]
    simp only [List.cons_append, List.append_eq, object_scan, hs, hd, Bool.false_and, Bool.and_false,
      Bool.not_true, Bool.not_false, Bool.true_and, Bool.and_true, Bool.false_eq_true,
      if_false, ite_true, ite_false]
    rw [ih (fun c hc => h c (by simp [hc])) rest obj (cat ++ [c]) file]
    simp

/-- The first file-name character also copies in the object name and a
dot (the composite-member rule). -/
theorem object_scan_file_first (c : Char) (rest obj cat : Str)
    (h1 : c ≠ '/') (h2 : c ≠ '\\') (h3 : c ≠ '.') :
    object_scan (c :: rest) obj cat [] false false true =
    object_scan rest obj cat ((obj ++ ['.']) ++ [c]) false false true := by
  have hs : is_slash c = false := is_slash_eq_false h1 h2
  have hd : (c == '.') = false := by simp [h3]
  simp [object_scan, hs, hd]

/-- While the file-name flag is up and the file name is already non-empty, a
plain segment is appended to it character by character. -/
theorem object_scan_file_seg (seg : Str) (h : plain_seg seg) :
    ∀ (rest obj cat file : Str), file ≠ [] →
      object_scan (seg ++ rest) obj cat file false false true =
      object_scan rest obj cat (file ++ seg) false false true := by
  induction seg with
  | nil => intro rest obj cat file _; simp
  | cons c cs ih =>
    intro rest obj cat file hf
    obtain ⟨h1, h2, h3⟩ := h c (by simp)
    have hs : is_slash c = false := is_slash_eq_false h1 h2
    have hd : (c == '.') = false := by simp [h3]
    have hlen : ¬ file.length = 0 := by simpa [List.length_eq_zero] using hf
    simp only [List.cons_append, List.append_eq, object_scan, hs, hd, Bool.false_and, Bool.and_false,
      Bool.not_true, Bool.not_false, Bool.true_and, Bool.and_true, Bool.false_eq_true,
      if_false, ite_true, ite_false, hlen]
    rw [ih (fun c hc => h c (by simp [hc])) rest obj cat (file ++ [c]) (by simp)]
    simp

/-- In read mode the folder-key loop consumes the rest of the name doing
nothing. -/
theorem process_name_loop_read_mode (code name : Str) :
    ∀ (rest acc : Str) (bs : List MetadataBucket) (log : List Str),
      process_name_loop code name rest 1 acc bs log = (bs, log) := by
  intro rest
  induction rest with
  | nil => intro acc bs log; rfl
  | cons c cs ih =>
    intro acc bs log
    simp only [process_name_loop]
    have : (decide ((1 : Nat) = 0)) = false := by decide
    simp [this, ih]

/-- In root mode a separator-free segment is appended to the accumulated
folder key character by character. -/
theorem process_name_loop_root_seg (code name seg : Str) (h : no_slash_seg seg) :
    ∀ (rest acc : Str) (bs : List MetadataBucket) (log : List Str),
      process_name_loop code name (seg ++ rest) 0 acc bs log =
      process_name_loop code name rest 0 (acc ++ seg) bs log := by
  induction seg with
  | nil => intro rest acc bs log; simp
  | cons c cs ih =>
    intro rest acc bs log
    obtain ⟨h1, h2⟩ := h c (by simp)
    have hs : is_slash c = false := is_slash_eq_false h1 h2
    simp only [List.cons_append, List.append_eq, process_name_loop, hs, Bool.false_and, Bool.false_eq_true,
      if_false, ite_true, ite_false]
    rw [ih (fun c hc => h c (by simp [hc])) rest (acc ++ [c]) bs log]
    simp

/-- Updating one folder key leaves the additive set of every other key
unchanged, provided the update preserves the folder key. -/
theorem bucket_files_update_ne (key key' : Str) (f : MetadataBucket → MetadataBucket)
    (hf : ∀ b, (f b).file_path_name = b.file_path_name) (h : key ≠ key') :
    ∀ bs, bucket_files key (update_bucket key' f bs) = bucket_files key bs := by
  intro bs
  induction bs with
  | nil => rfl
  | cons b bs ih =>
    by_cases hb : b.file_path_name = key'
    · have hbk : ¬ (f b).file_path_name = key := by rw [hf b, hb]; exact fun hk => h hk.symm
      have hbk2 : ¬ b.file_path_name = key := by rw [hb]; exact fun hk => h hk.symm
      simp [update_bucket, bucket_files, hb, hbk, hbk2, Ne.symm h]
    · simp [update_bucket, bucket_files, hb, ih]

/-- Updating one folder key leaves the destructive set of every other key
unchanged, provided the update preserves the folder key. -/
theorem bucket_destructive_update_ne (key key' : Str) (f : MetadataBucket → MetadataBucket)
    (hf : ∀ b, (f b).file_path_name = b.file_path_name) (h : key ≠ key') :
    ∀ bs, bucket_destructive_files key (update_bucket key' f bs) =
      bucket_destructive_files key bs := by
  intro bs
  induction bs with
  | nil => rfl
  | cons b bs ih =>
    by_cases hb : b.file_path_name = key'
    · have hbk : ¬ (f b).file_path_name = key := by rw [hf b, hb]; exact fun hk => h hk.symm
      have hbk2 : ¬ b.file_path_name = key := by rw [hb]; exact fun hk => h hk.symm
      simp [update_bucket, bucket_destructive_files, hb, hbk, hbk2, Ne.symm h]
    · simp [update_bucket, bucket_destructive_files, hb, ih]

theorem split_nl_ne_nil (s : Str) : split_nl s ≠ [] := by
  cases s with
  | nil => simp [split_nl]
  | cons c rest =>
    simp only [split_nl]
    by_cases hc : c = '\n'
    · simp [hc]
    · rw [if_neg hc]
      cases h : split_nl rest <;> simp [cons_first]

theorem map_first_nil_append : ∀ L : List Str, map_first (fun l => [] ++ l) L = L := by
  intro L; cases L <;> simp [map_first]

theorem split_loop_eq (s : Str) : ∀ (cur : Str) (acc : List Str), ('\n' ∉ cur) →
    split_loop s cur acc = acc ++ (map_first (fun l => cur ++ l) (split_nl s)).dropLast := by
  induction s with
  | nil => intro cur acc _; simp [split_loop, split_nl, map_first]
  | cons c rest ih =>
    intro cur acc hcur
    by_cases hc : c = '\n'
    · subst hc
      have hb : (('\n' : Char) == '\n') = true := by decide
      simp only [split_loop, hb, if_true, ite_true]
      rw [ih [] (acc ++ [cur]) (by simp), map_first_nil_append]
      have hsplit : split_nl ('\n' :: rest) = [] :: split_nl rest := by simp [split_nl]
      rw [hsplit]
      simp only [map_first]
      rw [List.dropLast_cons_of_ne_nil (split_nl_ne_nil rest)]
      simp
    · obtain ⟨l, ls, hL⟩ := List.exists_cons_of_ne_nil (split_nl_ne_nil rest)
      have hb : (c == '\n') = false := by simp [hc]
      have hnc : ('\n' : Char) ∉ cur ++ [c] := by
        intro hmem
        rcases List.mem_append.mp hmem with hm | hm
        · exact hcur hm
        · exact hc (List.mem_singleton.mp hm).symm
      simp only [split_loop, hb, Bool.false_eq_true, if_false, ite_false]
      rw [ih (cur ++ [c]) acc hnc]
      simp only [split_nl, hL]
      rw [if_neg hc]
      simp only [cons_first, map_first]
      rw [show cur ++ c :: l = (cur ++ [c]) ++ l by simp]

/-- C10: `split_to_lines_vec` returns exactly the newline-terminated
segments of its input in order, discarding any trailing characters after
the last newline: it equals the newline split minus its final (unterminated)
segment. -/
theorem c10_split_to_lines (s : Str) : split_to_lines_vec s = (split_nl s).dropLast := by
  unfold split_to_lines_vec
  by_cases h : s.length > 0
  · rw [if_pos h, split_loop_eq s [] [] (by simp), map_first_nil_append]
    simp
  · rw [if_neg h]
    have hs : s = [] := List.length_eq_zero.mp (by omega)
    subst hs
    simp [split_nl]

/-- C3 (amended): a run with at least `MAXIMUM_DIFF_FILE_SIZE` input lines
skips classification, reports exactly the size-exceeded error, and returns
the two documents as empty strings (`ManifestBundle::new`), without prolog,
root element or version element. -/
theorem c3_amended_size_guard (lines : List Str)
    (h : MAXIMUM_DIFF_FILE_SIZE ≤ lines.length) :
    sort_metadata_buckets lines = (ManifestBundle.new, [size_error_message]) := by
  unfold sort_metadata_buckets sort_metadata_buckets_enum
  rw [if_pos h]

theorem c3_witness :
    MAXIMUM_DIFF_FILE_SIZE ≤ (List.replicate 5000 ([] : Str)).length ∧
    sort_metadata_buckets (List.replicate 5000 ([] : Str)) =
      (ManifestBundle.new, [size_error_message]) :=
  ⟨by rw [List.length_replicate]; exact le_rfl,
   c3_amended_size_guard _ (by rw [List.length_replicate]; exact le_rfl)⟩

/-- C3 counterexample: at an input of 5000 lines the additive document is
the empty string, not the claimed prolog-root-version-closing skeleton. -/
theorem c3_counterexample :
    (sort_metadata_buckets (List.replicate 5000 ([] : Str))).1.manifest = [] ∧
    ([] : Str) ≠ xml_header ++ version_and_close := by
  constructor
  · unfold sort_metadata_buckets sort_metadata_buckets_enum
    rw [if_pos (by rw [List.length_replicate]; exact le_rfl)]
    rfl
  · decide

/-- C8 (amended): a record whose parsed path does not start with
`force-app` is silently skipped: the buckets and the error log are both
unchanged.  (The code checks only `force-app`, not the full
`force-app/main/default/` prefix the claim names: see the
counterexample.) -/
theorem c8_amended_skip (line : Str) (st : List MetadataBucket × List Str)
    (h : ( "force-app".data.isPrefixOf (scan_line line line_scan_init).line_file_path) = false) :
    process_line st line = st := by
  unfold process_line classify_parsed
  rw [h]
  simp

set_option maxRecDepth 40000 in
theorem c8_witness :
    (( "force-app".data.isPrefixOf
        (scan_line ( "M\tdocs/readme.txt".data) line_scan_init).line_file_path) = false) ∧
    process_line (common_metadata_buckets, []) ( "M\tdocs/readme.txt".data) =
      (common_metadata_buckets, []) :=
  ⟨by decide, c8_amended_skip _ _ (by decide)⟩

set_option maxRecDepth 100000 in
/-- C8 counterexample: the path `force-app/oops/classes/X.cls` does not
start with the project-root prefix `force-app/main/default/`, yet the run
is not silent: an unsupported-category diagnostic is logged for it. -/
theorem c8_counterexample :
    ( "force-app/main/default/".data.isPrefixOf ( "force-app/oops/classes/X.cls".data)) = false ∧
    (process_lines [ "M\tforce-app/oops/classes/X.cls".data] (common_metadata_buckets, [])).2 =
      [unsupported_message ( "force-app".data)] := by
  constructor
  · decide
  · decide

/-- C7: a record whose root-stripped name starts with a separator-free
segment that is not a folder key of the category table changes no bucket
and appends exactly one unsupported-category diagnostic to the log; and a
run continues past such a record, as shown for
`force-app/main/default/unknownType/X.foo`. -/
theorem c7_unsupported_category (code U R : Str) (bs : List MetadataBucket) (log : List Str)
    (hU : no_slash_seg U) (hnk : U ∉ metadata_category_keys) :
    process_name code (U ++ '/' :: R) bs log = (bs, log ++ [unsupported_message U]) ∧
    ∀ ls, process_lines ( "M\tforce-app/main/default/unknownType/X.foo".data :: ls)
        (common_metadata_buckets, []) =
      process_lines ls (common_metadata_buckets, [unsupported_message ( "unknownType".data)]) := by
  constructor
  · unfold process_name
    rw [process_name_loop_root_seg code (U ++ '/' :: R) U hU ('/' :: R) [] bs log]
    simp only [List.nil_append]
    have hstep0 : process_name_loop code (U ++ '/' :: R) ('/' :: R) 0 U bs log =
        (if U ∈ metadata_category_keys then
          (dispatch_resolver code (U ++ '/' :: R) U bs, log)
         else process_name_loop code (U ++ '/' :: R) R 1 U bs
           (log ++ [unsupported_message U])) := rfl
    rw [hstep0, if_neg hnk]
    exact process_name_loop_read_mode code _ R U bs (log ++ [unsupported_message U])
  · intro ls
    show process_lines ls
        (process_line (common_metadata_buckets, [])
          ( "M\tforce-app/main/default/unknownType/X.foo".data)) = _
    have hstep : process_line (common_metadata_buckets, [])
        ( "M\tforce-app/main/default/unknownType/X.foo".data) =
        (common_metadata_buckets, [unsupported_message ( "unknownType".data)]) := by decide
    rw [hstep]

set_option maxRecDepth 100000 in
theorem c7_witness :
    no_slash_seg ( "unknownType".data) ∧
    ( "unknownType".data ∉ metadata_category_keys) ∧
    process_name ( "M".data) ( "unknownType".data ++ '/' :: "X.foo".data)
        common_metadata_buckets [] =
      (common_metadata_buckets, [unsupported_message ( "unknownType".data)]) :=
  ⟨by decide, by decide,
   (c7_unsupported_category ( "M".data) _ _ _ _ (by decide) (by decide)).1⟩

theorem serialize_loop_enum_congr (enum1 enum2 : List Str → List Str)
    (h1 : ∀ l, (enum1 l).Perm l) (h2 : ∀ l, (enum2 l).Perm l) :
    ∀ (bs : List MetadataBucket) (x d : Str),
      serialize_loop_enum enum1 bs x d = serialize_loop_enum enum2 bs x d := by
  intro bs
  induction bs with
  | nil => intro x d; rfl
  | cons b bs ih =>
    intro x d
    have e1 : sortStr (enum1 b.files) = sortStr (enum2 b.files) :=
      sortStr_perm_eq ((h1 _).trans (h2 _).symm)
    have e2 : sortStr (enum1 b.destructive_files) = sortStr (enum2 b.destructive_files) :=
      sortStr_perm_eq ((h1 _).trans (h2 _).symm)
    simp only [serialize_loop_enum]
    rw [e1, e2]
    by_cases hb : b.files.length = 0 ∧ b.destructive_files.length = 0
    · rw [if_pos hb, if_pos hb, ih]
    · rw [if_neg hb, if_neg hb, ih]

/-- C9: the engine is deterministic in the face of the unordered hash sets:
two serializations of the same classified run that enumerate each member
set in any two orders produce identical documents, because every member
list is sorted before it is rendered.  In particular two identical runs
yield identical output. -/
theorem c9_determinism (enum1 enum2 : List Str → List Str)
    (h1 : ∀ l, (enum1 l).Perm l) (h2 : ∀ l, (enum2 l).Perm l) (lines : List Str) :
    sort_metadata_buckets_enum enum1 lines = sort_metadata_buckets_enum enum2 lines := by
  unfold sort_metadata_buckets_enum
  by_cases hg : lines.length ≥ MAXIMUM_DIFF_FILE_SIZE
  · rw [if_pos hg, if_pos hg]
  · rw [if_neg hg, if_neg hg,
      serialize_loop_enum_congr enum1 enum2 h1 h2
        (process_lines lines (common_metadata_buckets, [])).1 xml_header xml_header]

theorem c9_witness :
    (∀ l : List Str, ((fun l => l) l).Perm l) ∧
    sort_metadata_buckets_enum (fun l => l)
        [ "M\tforce-app/main/default/classes/Foo.cls".data] =
      sort_metadata_buckets_enum (fun l => l)
        [ "M\tforce-app/main/default/classes/Foo.cls".data] :=
  ⟨fun l => List.Perm.refl l,
   c9_determinism _ _ (fun l => List.Perm.refl l) (fun l => List.Perm.refl l) _⟩

theorem serialize_loop_enum_id_spec :
    ∀ (bs : List MetadataBucket) (x d : Str),
      serialize_loop_enum (fun l => l) bs x d =
        (x ++ spec_document (fun b => b.files) bs,
         d ++ spec_document (fun b => b.destructive_files) bs) := by
  intro bs
  induction bs with
  | nil => intro x d; simp [serialize_loop_enum, spec_document]
  | cons b bs ih =>
    intro x d
    by_cases hf : b.files = [] <;> by_cases hd : b.destructive_files = []
    · have hc : b.files.length = 0 ∧ b.destructive_files.length = 0 := by simp [hf, hd]
      simp only [serialize_loop_enum, if_pos hc]
      rw [ih]
      simp [spec_document, spec_types_block, hf, hd]
    · have hc : ¬ (b.files.length = 0 ∧ b.destructive_files.length = 0) := by simp [hf, hd]
      have h2 : 0 < b.destructive_files.length := List.length_pos.mpr hd
      simp only [serialize_loop_enum, if_neg hc]
      simp only [hf, List.length_nil, gt_iff_lt, Nat.lt_irrefl, ite_false, if_false, h2,
        ite_true, if_true, sortStr, List.insertionSort, members_lines, List.append_nil]
      rw [ih]
      simp [spec_document, spec_types_block, hf, hd, List.append_assoc, sortStr]
    · have hc : ¬ (b.files.length = 0 ∧ b.destructive_files.length = 0) := by simp [hf, hd]
      have h1 : 0 < b.files.length := List.length_pos.mpr hf
      simp only [serialize_loop_enum, if_neg hc]
      simp only [hd, List.length_nil, gt_iff_lt, Nat.lt_irrefl, ite_false, if_false, h1,
        ite_true, if_true, sortStr, List.insertionSort, members_lines, List.append_nil]
      rw [ih]
      simp [spec_document, spec_types_block, hf, hd, List.append_assoc, sortStr]
    · have hc : ¬ (b.files.length = 0 ∧ b.destructive_files.length = 0) := by simp [hf, hd]
      have h1 : 0 < b.files.length := List.length_pos.mpr hf
      have h2 : 0 < b.destructive_files.length := List.length_pos.mpr hd
      simp only [serialize_loop_enum, if_neg hc]
      simp only [gt_iff_lt, h1, h2, ite_true, if_true]
      rw [ih]
      simp [spec_document, spec_types_block, hf, hd, List.append_assoc]

/-- C5: the serialization loop renders, for each bucket in table order and
for each of the two documents independently, either nothing (empty member
set) or a `<types>` block holding the sorted `<members>` entries followed by
the single `<name>` element; and the rendered member list is always sorted
(lexicographically on characters, hence case-sensitively). -/
theorem c5_serializer_order (bs : List MetadataBucket) (x d : Str) :
    serialize_loop bs x d =
      (x ++ spec_document (fun b => b.files) bs,
       d ++ spec_document (fun b => b.destructive_files) bs) ∧
    ∀ l : List Str, List.Sorted (fun a b => a ≤ b) (sortStr l) :=
  ⟨serialize_loop_enum_id_spec bs x d, fun l => List.sorted_insertionSort _ l⟩

set_option maxRecDepth 400000 in
/-- C6 (amended): the CustomLabels wildcard substitution is applied to the
additive document only: an additive labels run renders its block with the
sole member `*`, while a destructive labels run keeps the literal
`CustomLabels` member in the destructive document. -/
theorem c6_amended_labels :
    (sort_metadata_buckets
        [ "M\tforce-app/main/default/labels/CustomLabels.labels-meta.xml".data]).1.manifest =
      ( "<?xml version=\"1.0\" encoding=\"UTF-8\"?>\n<Package xmlns=\"http://soap.sforce.com/2006/04/metadata\">\n\t<types>\n\t\t<members>*</members>\n\t\t<name>CustomLabels</name>\n\t</types>\n\t<version>64.0</version>\n</Package>".data) ∧
    (sort_metadata_buckets
        [ "D\tforce-app/main/default/labels/CustomLabels.labels-meta.xml".data]).1.destructive_manifest =
      ( "<?xml version=\"1.0\" encoding=\"UTF-8\"?>\n<Package xmlns=\"http://soap.sforce.com/2006/04/metadata\">\n\t<types>\n\t\t<members>CustomLabels</members>\n\t\t<name>CustomLabels</name>\n\t</types>\n\t<version>64.0</version>\n</Package>".data) := by
  constructor
  · decide
  · decide

set_option maxRecDepth 400000 in
/-- C6 counterexample: the destructive document of a destructive labels run
still contains the replaceable CustomLabels block — applying the
substitution to it would change it — so the substitution is NOT applied to
whichever document the block appears in, only to the additive one. -/
theorem c6_counterexample :
    (sort_metadata_buckets
        [ "D\tforce-app/main/default/labels/CustomLabels.labels-meta.xml".data]).1.destructive_manifest ≠
      replace_all custom_labels_pattern custom_labels_replacement
        (sort_metadata_buckets
          [ "D\tforce-app/main/default/labels/CustomLabels.labels-meta.xml".data]).1.destructive_manifest := by
  decide

set_option maxRecDepth 400000 in
/-- C1 counterexample: a deletion-status record (`D`) for an lwc bundle file
and one for a customMetadata record both land in the bucket's ADDITIVE set,
with the destructive set left empty — not in the destructive set as the
claim states for every category. -/
theorem c1_counterexample :
    starts_with_char ( "D".data) 'D' = true ∧
    bucket_files ( "lwc".data)
      (process_lines [ "D\tforce-app/main/default/lwc/MyComp/myComp.js".data]
        (common_metadata_buckets, [])).1 = [ "MyComp".data] ∧
    bucket_destructive_files ( "lwc".data)
      (process_lines [ "D\tforce-app/main/default/lwc/MyComp/myComp.js".data]
        (common_metadata_buckets, [])).1 = [] ∧
    bucket_files ( "customMetadata".data)
      (process_lines [ "D\tforce-app/main/default/customMetadata/MySetting.Rec.md-meta.xml".data]
        (common_metadata_buckets, [])).1 = [ "MySetting.Rec".data] ∧
    bucket_destructive_files ( "customMetadata".data)
      (process_lines [ "D\tforce-app/main/default/customMetadata/MySetting.Rec.md-meta.xml".data]
        (common_metadata_buckets, [])).1 = [] := by
  exact ⟨by decide, by decide, by decide, by decide, by decide⟩

set_option maxRecDepth 400000 in
/-- C1 (amended): status routing by `change_code_constructive` holds for the
basic resolver (`classes`) and the quick-action resolver, but the bundle
categories (`aura`, `lwc`) and `customMetadata` always insert their member
into the additive set, for every change code. -/
theorem c1_amended_routing (code : Str) :
    (bucket_files ( "classes".data)
        (classify_parsed code ( "force-app/main/default/classes/Foo.cls".data)
          common_metadata_buckets []).1 =
        (if change_code_constructive code then [ "Foo".data] else []) ∧
      bucket_destructive_files ( "classes".data)
        (classify_parsed code ( "force-app/main/default/classes/Foo.cls".data)
          common_metadata_buckets []).1 =
        (if change_code_constructive code then [] else [ "Foo".data])) ∧
    (bucket_files ( "quickActions".data)
        (classify_parsed code
          ( "force-app/main/default/quickActions/Account.New.quickAction-meta.xml".data)
          common_metadata_buckets []).1 =
        (if change_code_constructive code then [ "Account.New".data] else []) ∧
      bucket_destructive_files ( "quickActions".data)
        (classify_parsed code
          ( "force-app/main/default/quickActions/Account.New.quickAction-meta.xml".data)
          common_metadata_buckets []).1 =
        (if change_code_constructive code then [] else [ "Account.New".data])) ∧
    (bucket_files ( "lwc".data)
        (classify_parsed code ( "force-app/main/default/lwc/MyComp/myComp.js".data)
          common_metadata_buckets []).1 = [ "MyComp".data] ∧
      bucket_destructive_files ( "lwc".data)
        (classify_parsed code ( "force-app/main/default/lwc/MyComp/myComp.js".data)
          common_metadata_buckets []).1 = []) ∧
    (bucket_files ( "aura".data)
        (classify_parsed code ( "force-app/main/default/aura/MyAura/myAura.cmp".data)
          common_metadata_buckets []).1 = [ "MyAura".data] ∧
      bucket_destructive_files ( "aura".data)
        (classify_parsed code ( "force-app/main/default/aura/MyAura/myAura.cmp".data)
          common_metadata_buckets []).1 = []) ∧
    (bucket_files ( "customMetadata".data)
        (classify_parsed code
          ( "force-app/main/default/customMetadata/MySetting.Rec.md-meta.xml".data)
          common_metadata_buckets []).1 = [ "MySetting.Rec".data] ∧
      bucket_destructive_files ( "customMetadata".data)
        (classify_parsed code
          ( "force-app/main/default/customMetadata/MySetting.Rec.md-meta.xml".data)
          common_metadata_buckets []).1 = []) := by
  have hb : basic_name code ( "classes/Foo.cls".data) =
      (fun b => if change_code_constructive code then
          { b with files := insert_set ( "Foo".data) b.files }
        else { b with destructive_files := insert_set ( "Foo".data) b.destructive_files }) := rfl
  have hsplitC : classify_parsed code ( "force-app/main/default/classes/Foo.cls".data)
      common_metadata_buckets [] =
      (update_bucket ( "classes".data) (basic_name code ( "classes/Foo.cls".data))
        common_metadata_buckets, []) := rfl
  have hq : quick_action_name code ( "quickActions/Account.New.quickAction-meta.xml".data) =
      (fun b => if change_code_constructive code then
          { b with files := insert_set ( "Account.New".data) b.files }
        else { b with destructive_files := insert_set ( "Account.New".data) b.destructive_files }) := rfl
  have hsplitQ : classify_parsed code
      ( "force-app/main/default/quickActions/Account.New.quickAction-meta.xml".data)
      common_metadata_buckets [] =
      (update_bucket ( "quickActions".data)
        (quick_action_name code ( "quickActions/Account.New.quickAction-meta.xml".data))
        common_metadata_buckets, []) := rfl
  refine ⟨⟨?_, ?_⟩, ⟨?_, ?_⟩, ⟨rfl, rfl⟩, ⟨rfl, rfl⟩, ⟨rfl, rfl⟩⟩
  · rw [hsplitC, hb]
    cases hc : change_code_constructive code
    · decide
    · decide
  · rw [hsplitC, hb]
    cases hc : change_code_constructive code
    · decide
    · decide
  · rw [hsplitQ, hq]
    cases hc : change_code_constructive code
    · decide
    · decide
  · rw [hsplitQ, hq]
    cases hc : change_code_constructive code
    · decide
    · decide

set_option maxRecDepth 400000 in
/-- C2 counterexample: for the claim's two-segment path
`objects/Account.object-meta.xml` the member inserted into the `objects`
bucket is the EMPTY string, not the object name `Account`. -/
theorem c2_counterexample :
    bucket_files ( "objects".data)
      (process_lines [ "M\tforce-app/main/default/objects/Account.object-meta.xml".data]
        (common_metadata_buckets, [])).1 = [([] : Str)] ∧
    ( "Account".data) ∉ bucket_files ( "objects".data)
      (process_lines [ "M\tforce-app/main/default/objects/Account.object-meta.xml".data]
        (common_metadata_buckets, [])).1 := by
  exact ⟨by decide, by decide⟩

set_option maxRecDepth 400000 in
/-- C2 (amended): when the dot arrives before the file-name flag is up, the
object resolver inserts the ACCUMULATED CATEGORY text into the `objects`
bucket (routed by status): for the conventional three-segment layout
`objects/O/O.object-meta.xml` that text is the object name `O`, while for
the claim's two-segment form `objects/O.object-meta.xml` it is the empty
string. -/
theorem c2_amended_object_self (code O : Str) (bs : List MetadataBucket) (hO : plain_seg O) :
    (object_metadata code
        ( "objects/".data ++ (O ++ ('/' :: (O ++ ".object-meta.xml".data)))) bs =
      update_bucket ( "objects".data) (fun b =>
        if change_code_constructive code then { b with files := insert_set O b.files }
        else { b with destructive_files := insert_set O b.destructive_files }) bs) ∧
    (object_metadata code ( "objects/".data ++ (O ++ ".object-meta.xml".data)) bs =
      update_bucket ( "objects".data) (fun b =>
        if change_code_constructive code then { b with files := insert_set [] b.files }
        else { b with destructive_files := insert_set [] b.destructive_files }) bs) ∧
    bucket_files ( "objects".data)
      (process_lines
        [ "M\tforce-app/main/default/objects/Account/Account.object-meta.xml".data]
        (common_metadata_buckets, [])).1 = [ "Account".data] := by
  have hscan1 : object_scan
      ( "objects/".data ++ (O ++ ('/' :: (O ++ ".object-meta.xml".data)))) [] [] []
      false false false = .object_self O := by
    have s1 : object_scan
        ( "objects/".data ++ (O ++ ('/' :: (O ++ ".object-meta.xml".data)))) [] [] []
        false false false =
        object_scan (O ++ ('/' :: (O ++ ".object-meta.xml".data))) [] [] []
          true false false := rfl
    rw [s1, object_scan_obj_seg O hO ('/' :: (O ++ ".object-meta.xml".data)) [] [] []]
    simp only [List.nil_append]
    have s2 : object_scan ('/' :: (O ++ ".object-meta.xml".data)) O [] [] true false false =
        object_scan (O ++ ".object-meta.xml".data) O [] [] false true false := rfl
    rw [s2, object_scan_cat_seg O hO ( ".object-meta.xml".data) O [] []]
    simp only [List.nil_append]
    rfl
  have hscan2 : object_scan ( "objects/".data ++ (O ++ ".object-meta.xml".data)) [] [] []
      false false false = .object_self [] := by
    have s1 : object_scan ( "objects/".data ++ (O ++ ".object-meta.xml".data)) [] [] []
        false false false =
        object_scan (O ++ ".object-meta.xml".data) [] [] [] true false false := rfl
    rw [s1, object_scan_obj_seg O hO ( ".object-meta.xml".data) [] [] []]
    simp only [List.nil_append]
    rfl
  refine ⟨?_, ?_, by decide⟩
  · unfold object_metadata
    rw [hscan1]
  · unfold object_metadata
    rw [hscan2]

set_option maxRecDepth 400000 in
theorem c2_witness :
    plain_seg ( "Account".data) ∧
    object_metadata ( "M".data)
        ( "objects/".data ++
          ( "Account".data ++ ('/' :: ( "Account".data ++ ".object-meta.xml".data))))
        common_metadata_buckets =
      update_bucket ( "objects".data) (fun b =>
        if change_code_constructive ( "M".data) then
          { b with files := insert_set ( "Account".data) b.files }
        else
          { b with destructive_files := insert_set ( "Account".data) b.destructive_files })
        common_metadata_buckets :=
  ⟨by decide, (c2_amended_object_self ( "M".data) ( "Account".data)
    common_metadata_buckets (by decide)).1⟩

set_option maxRecDepth 400000 in
/-- C4: an object-field path `objects/O/fields/F.field-meta.xml` resolves to
the composite member `O.F` (object name, dot, field name with only the
extension stripped), inserted — routed by status — into the bucket that the
category table maps `fields` to, while the `objects` bucket is untouched. -/
theorem c4_object_field_member (code O F : Str) (bs : List MetadataBucket)
    (hO : plain_seg O) (hF : plain_seg F) (hFne : F ≠ []) :
    (object_metadata code
        ( "objects/".data ++ (O ++ ( "/fields/".data ++ (F ++ ".field-meta.xml".data)))) bs =
      update_bucket ( "fields".data) (fun b =>
        if change_code_constructive code then
          { b with files := insert_set (O ++ '.' :: F) b.files }
        else
          { b with destructive_files := insert_set (O ++ '.' :: F) b.destructive_files }) bs) ∧
    bucket_files ( "objects".data)
      (object_metadata code
        ( "objects/".data ++ (O ++ ( "/fields/".data ++ (F ++ ".field-meta.xml".data))))
        common_metadata_buckets) = [] ∧
    bucket_destructive_files ( "objects".data)
      (object_metadata code
        ( "objects/".data ++ (O ++ ( "/fields/".data ++ (F ++ ".field-meta.xml".data))))
        common_metadata_buckets) = [] ∧
    bucket_files ( "fields".data)
      (process_lines
        [ "M\tforce-app/main/default/objects/Account/fields/Foo__c.field-meta.xml".data]
        (common_metadata_buckets, [])).1 = [ "Account.Foo__c".data] := by
  obtain ⟨f0, F', hFeq⟩ := List.exists_cons_of_ne_nil hFne
  subst hFeq
  obtain ⟨hf1, hf2, hf3⟩ := hF f0 (by simp)
  have hscan : object_scan
      ( "objects/".data ++ (O ++ ( "/fields/".data ++ ((f0 :: F') ++ ".field-meta.xml".data))))
      [] [] [] false false false =
      .field_like ( "fields".data) (O ++ '.' :: (f0 :: F')) := by
    have s1 : object_scan
        ( "objects/".data ++
          (O ++ ( "/fields/".data ++ ((f0 :: F') ++ ".field-meta.xml".data))))
        [] [] [] false false false =
        object_scan (O ++ ( "/fields/".data ++ ((f0 :: F') ++ ".field-meta.xml".data)))
          [] [] [] true false false := rfl
    rw [s1, object_scan_obj_seg O hO
      ( "/fields/".data ++ ((f0 :: F') ++ ".field-meta.xml".data)) [] [] []]
    simp only [List.nil_append]
    have s2 : object_scan ( "/fields/".data ++ ((f0 :: F') ++ ".field-meta.xml".data))
        O [] [] true false false =
        object_scan ((f0 :: F') ++ ".field-meta.xml".data) O ( "fields".data) []
          false false true := rfl
    rw [s2]
    simp only [List.cons_append]
    rw [object_scan_file_first f0 (F' ++ ".field-meta.xml".data) O ( "fields".data)
      hf1 hf2 hf3]
    rw [object_scan_file_seg F' (fun c hc => hF c (by simp [hc]))
      ( ".field-meta.xml".data) O ( "fields".data) ((O ++ ['.']) ++ [f0]) (by simp)]
    have s3 : object_scan ( ".field-meta.xml".data) O ( "fields".data)
        (((O ++ ['.']) ++ [f0]) ++ F') false false true =
        .field_like ( "fields".data) (((O ++ ['.']) ++ [f0]) ++ F') := rfl
    rw [s3]
    congr 1
    simp
  have hgen : ∀ bs' : List MetadataBucket,
      object_metadata code
        ( "objects/".data ++ (O ++ ( "/fields/".data ++ ((f0 :: F') ++ ".field-meta.xml".data))))
        bs' =
      update_bucket ( "fields".data) (fun b =>
        if change_code_constructive code then
          { b with files := insert_set (O ++ '.' :: (f0 :: F')) b.files }
        else
          { b with destructive_files :=
              insert_set (O ++ '.' :: (f0 :: F')) b.destructive_files }) bs' := by
    intro bs'
    unfold object_metadata
    rw [hscan]
    exact if_pos (show ( "fields".data) ∈ metadata_category_keys by decide)
  have hname : ∀ b : MetadataBucket,
      ((fun b : MetadataBucket => if change_code_constructive code then
          { b with files := insert_set (O ++ '.' :: (f0 :: F')) b.files }
        else { b with destructive_files :=
            insert_set (O ++ '.' :: (f0 :: F')) b.destructive_files }) b).file_path_name =
        b.file_path_name := by
    intro b
    cases hc : change_code_constructive code <;> simp
  refine ⟨hgen bs, ?_, ?_, by decide⟩
  · rw [hgen common_metadata_buckets,
      bucket_files_update_ne ( "objects".data) ( "fields".data) _ hname (by decide)
        common_metadata_buckets]
    rfl
  · rw [hgen common_metadata_buckets,
      bucket_destructive_update_ne ( "objects".data) ( "fields".data) _ hname (by decide)
        common_metadata_buckets]
    rfl

set_option maxRecDepth 400000 in
theorem c4_witness :
    plain_seg ( "Account".data) ∧ plain_seg ( "Foo__c".data) ∧ ( "Foo__c".data ≠ []) ∧
    object_metadata ( "M".data)
        ( "objects/".data ++
          ( "Account".data ++ ( "/fields/".data ++ ( "Foo__c".data ++ ".field-meta.xml".data))))
        common_metadata_buckets =
      update_bucket ( "fields".data) (fun b =>
        if change_code_constructive ( "M".data) then
          { b with files := insert_set ( "Account".data ++ '.' :: "Foo__c".data) b.files }
        else
          { b with destructive_files :=
              insert_set ( "Account".data ++ '.' :: "Foo__c".data) b.destructive_files })
        common_metadata_buckets :=
  ⟨by decide, by decide, by decide,
   (c4_object_field_member ( "M".data) ( "Account".data) ( "Foo__c".data)
     common_metadata_buckets (by decide) (by decide) (by decide)).1⟩

end SfManifest
